import Mathlib

/-!
Shallow embedding of the core of `src/senaite/core/exportimport/setupdata/__init__.py`
(the tabular dataset import engine): the row normalizer (`WorksheetImporter.get_rows`),
the entity resolver (`WorksheetImporter.get_object`), the asset resolver (`read_file`)
together with the IOError recovery in `WorksheetImporter.__call__`, the numeric coercion
helpers (`to_int` / `to_float`), the uncertainty batch accumulator
(`Analysis_Services.load_service_uncertainties` / `write_bucket`), and the required-column
handling of `Invoice_Batches.Import` contrasted with `Sub_Groups.Import`.

Python side effects that do not influence the values the claims are about (logging,
`transaction.savepoint()` checkpoints) are dropped; exceptions are modelled with
`Except` over an explicit exception-kind type `PyExc`, because the source distinguishes
exception classes in its `except` clauses (`except IOError` in `__call__`,
`except ValueError` in `to_int`/`to_float`).
-/

namespace Senaite

/-- Kinds of Python exceptions raised or caught by the embedded code.  The source
branches on the exception class (`except IOError:`, `except ValueError:`), so the
class is part of the model. -/
inductive PyExc where
  | ioError (msg : String)
  | valueError (msg : String)
  | typeError (msg : String)
  | exc (msg : String)
deriving DecidableEq

/-! ## Row normalizer: `WorksheetImporter.get_rows` (lines 156-200)

A raw worksheet is a list of rows, each row a list of cells; `cell.value` is `None`,
a text, or a number, modelled by `Cell`.  The Python 2 `unicode`/`str` distinction and
the `.encode('utf-8')` step are identities in this model (both are `Cell.str`). -/

/-- A raw worksheet cell value (`cell.value`): absent (`None`), text, or numeric. -/
inductive Cell where
  | empty
  | str (s : String)
  | num (n : Int)
deriving DecidableEq

/-- A cell value after the normalisation loop of `get_rows` (lines 178-189):
`None` has become `''`, text has been stripped; numbers pass through unchanged. -/
inductive Value where
  | str (s : String)
  | num (n : Int)
deriving DecidableEq

/-- A value stored in a normalized record: either a (processed) cell value, or one of
the nested address sub-dictionaries installed by lines 192-198. -/
inductive RVal where
  | val (v : Value)
  | sub (m : List (String × String))
deriving DecidableEq

/-- The normalized record `row`: a Python dict keyed by the raw header cell values.
Represented as an association list where assignment appends at the end and lookup
takes the last binding (so later bindings shadow earlier ones, as in a dict built by
`dict(zip(...))` followed by item assignments). -/
abbrev Dict := List (Cell × RVal)

/-- Dict lookup, last binding wins (`row[k]` / `row.get(k)`). -/
def dget : Dict → Cell → Option RVal
  | [], _ => none
  | (k, v) :: rest, key =>
    match dget rest key with
    | some v2 => some v2
    | none => if k = key then some v else none

/-- Dict assignment `row[k] = v` (append; `dget` prefers the later binding). -/
def dset (d : Dict) (k : Cell) (v : RVal) : Dict := d ++ [(k, v)]

/-- Dict key membership `k in row`. -/
def dmem (d : Dict) (k : Cell) : Bool := d.any (fun e => e.1 = k)

/-- The characters stripped at line 188: `value.strip(' \t\n\r')`. -/
def isStripChar (c : Char) : Bool :=
  c == ' ' || c == '\t' || c == '\n' || c == '\r'

/-- Python `s.strip(' \t\n\r')`: remove those characters from both ends.
(Implemented over the character list so that it evaluates by kernel reduction.) -/
def pyStrip (s : String) : String :=
  String.mk (((s.toList.dropWhile isStripChar).reverse.dropWhile isStripChar).reverse)

/-- Lines 180-189: `None` becomes `''`; strings are stripped of the characters
`' \t\n\r'` on both sides; the utf-8 encoding step is the identity here. -/
def processCell : Cell → Value
  | .empty => .str ""
  | .str s => .str (pyStrip s)
  | .num n => .num n

/-- `str(row.get(k, ''))` for the values reachable at `<Type>_<Key>` columns.
A missing key gives the default `''`.  The `RVal.sub` case is unreachable for the
keys this is applied to (only the three category keys `Physical`/`Postal`/`Billing`
ever hold a sub-dict, and `addrSub` reads only `<Type>_<Key>` keys), so its value
is irrelevant to any reachable behaviour. -/
def pyStr : Option RVal → String
  | none => ""
  | some (.val (.str s)) => s
  | some (.val (.num n)) => toString n
  | some (.sub _) => ""

/-- The three address categories of line 193. -/
def addr_types : List String := ["Physical", "Postal", "Billing"]

/-- The six address sub-keys of line 196.  Note: the source uses these capitalized
strings directly as the keys of the nested dict (line 197 writes `row[add_type][key]`,
not `key.lower()`). -/
def addr_keys : List String := ["Address", "City", "State", "District", "Zip", "Country"]

/-- The nested dict built by the inner loop of lines 196-198 for category `t`:
each capitalized sub-key maps to `str(row.get("<t>_<key>", ''))`. -/
def addrSub (d : Dict) (t : String) : List (String × String) :=
  addr_keys.map (fun k => (k, pyStr (dget d (.str (t ++ "_" ++ k)))))

/-- One iteration of the loop at lines 193-198 for category `t`:
`row[t] = {}`, then, if the `<t>_Address` column exists, fill the six sub-keys.
(The in-place mutation of the nested dict is modelled as building the full
sub-dict and assigning it once; nothing reads `row[t]` in between.) -/
def addrStep (d : Dict) (t : String) : Dict :=
  let d1 := dset d (.str t) (.sub [])
  if dmem d1 (.str (t ++ "_Address")) then
    dset d1 (.str t) (.sub (addrSub d1 t))
  else d1

/-- Lines 192-198: address expansion over the three categories, in order. -/
def addrExpand (d : Dict) : Dict := addr_types.foldl addrStep d

/-- `dict(zip(headers, new_row))` (line 190): pairs are truncated to the shorter
list; duplicate header keys are shadowed by the later binding via `dget`. -/
def zipDict (headers : List Cell) (vals : List Value) : Dict :=
  (headers.zip vals).map (fun p => (p.1, RVal.val p.2))

/-- Normalisation of one data row (lines 178-198): process every cell, zip with
the raw header cells, expand addresses. -/
def processRow (headers row : List Cell) : Dict :=
  addrExpand (zipDict headers (row.map processCell))

/-- The loop of lines 167-200 after the header row has been captured: `rowNr` is the
1-based number of the last row consumed; rows with number `≤ startrow` are skipped
(`continue` at line 175-176); every other row is normalized and yielded together with
its row number.  The `transaction.savepoint()` checkpoint (lines 173-174) has no
effect on the yielded records and is dropped. -/
def rowsFrom (headers : List Cell) (startrow : Nat) : Nat → List (List Cell) → List (Nat × Dict)
  | _, [] => []
  | rowNr, r :: rs =>
    let n := rowNr + 1
    if n ≤ startrow then rowsFrom headers startrow n rs
    else (n, processRow headers r) :: rowsFrom headers startrow n rs

/-- `WorksheetImporter.get_rows(startrow, worksheet)`: the first row (row number 1)
is always consumed as the header row (lines 169-172); the remaining rows go through
`rowsFrom`.  The result lists the yielded records paired with their 1-based row
numbers in the sheet. -/
def get_rows (startrow : Nat) (worksheet : List (List Cell)) : List (Nat × Dict) :=
  match worksheet with
  | [] => []
  | hrow :: rest => rowsFrom hrow startrow 1 rest

/-! ## Asset resolver: `read_file` (lines 99-110) and the IOError recovery in
`WorksheetImporter.__call__` (lines 143-152)

The filesystem is an abstract partial map from path to file contents
(`os.path.isfile(p)` is `(fs p).isSome`; `open(p, "rb").read()` is the mapped value). -/

/-- Line 102-103: the allowed extensions, lower-case, in probe order. -/
def allowed_ext_lower : List String :=
  ["pdf", "jpg", "jpeg", "png", "gif", "ods", "odt",
   "xlsx", "doc", "docx", "xls", "csv", "txt"]

/-- `e.upper()` for an ascii extension (implemented over the character list so
that it evaluates by kernel reduction). -/
def strUpper (s : String) : String := String.mk (s.toList.map Char.toUpper)

/-- Line 104: `allowed_ext += [e.upper() for e in allowed_ext]` — the full probe
list is all lower-case extensions followed by all upper-case ones. -/
def allowed_ext : List String :=
  allowed_ext_lower ++ allowed_ext_lower.map strUpper

/-- `','.join(l)` (line 110). -/
def joinComma : List String → String
  | [] => ""
  | [x] => x
  | x :: xs => x ++ "," ++ joinComma xs

/-- The loop of lines 105-108: try `path + "." + ext` for each extension in order,
returning the contents of the first existing candidate. -/
def probe_ext (fs : String → Option String) (path : String) : List String → Option String
  | [] => none
  | e :: es =>
    match fs (path ++ "." ++ e) with
    | some data => some data
    | none => probe_ext fs path es

/-- `read_file(path)` (lines 99-110): return the file at `path` if it exists,
otherwise probe the extension candidates in order; if none exists, raise
`IOError("File not found: ...")` (line 109-110). -/
def read_file (fs : String → Option String) (path : String) : Except PyExc String :=
  match fs path with
  | some data => .ok data
  | none =>
    match probe_ext fs path allowed_ext with
    | some data => .ok data
    | none =>
      .error (.ioError ("File not found: " ++ path ++ ". Allowed extensions: "
        ++ joinComma allowed_ext))

/-- Outcome of `WorksheetImporter.__call__` around `self.Import()`:
either the call returns normally (`warned` records whether the IOError warning
path of lines 145-152 ran), or an exception propagates out of the call. -/
inductive CallResult where
  | completed (warned : Bool)
  | raised (e : PyExc)
deriving DecidableEq

/-- Lines 143-152 of `WorksheetImporter.__call__`: `try: self.Import() except IOError:`
— only `IOError` is caught (logged as a warning, the call completes); every other
exception propagates and aborts the run. -/
def worksheet_importer_call (importOutcome : Except PyExc Unit) : CallResult :=
  match importOutcome with
  | .ok _ => .completed false
  | .error (.ioError _) => .completed true
  | .error e => .raised e

/-! ## Entity resolver: `WorksheetImporter.get_object` (lines 318-341)

The catalog collaborator is an abstract query function from a content filter to an
ordered list of matching entities (a brain's `getObject()` is the entity itself here).
A content filter is a Python dict from criterion name to criterion value; values are
`Option String` because the fallback query passes the raw `title` argument, which may
be `None`.  Logging (lines 331, 338) is a side effect without influence on the
returned value and is dropped. -/

abbrev Entity := String

abbrev ContentFilter := List (String × Option String)

/-- Dict assignment on a content filter (`contentFilter[k] = v` /
`contentFilter.update(kwargs)` semantics: replace the binding if the key exists,
else append it). -/
def cfSet (d : ContentFilter) (k : String) (v : Option String) : ContentFilter :=
  if d.any (fun e => e.1 = k) then
    d.map (fun e => if e.1 = k then (k, v) else e)
  else d ++ [(k, v)]

/-- Python truthiness of the `title` argument (line 323 / 326): `None` and the
empty string are falsy. -/
def truthyTitle : Option String → Bool
  | none => false
  | some s => !(s == "")

/-- Lines 325-328: `contentFilter = {"portal_type": portal_type}`; if `title` is
truthy, `contentFilter['title'] = to_unicode(title)` (`to_unicode` is the identity
in this model); then `contentFilter.update(kwargs)`. -/
def primaryFilter (portal_type : String) (title : Option String)
    (kwargs : List (String × String)) : ContentFilter :=
  let base : ContentFilter :=
    if truthyTitle title then
      cfSet [("portal_type", some portal_type)] "title" title
    else [("portal_type", some portal_type)]
  kwargs.foldl (fun d p => cfSet d p.1 (some p.2)) base

/-- Line 335: the kind-specific fallback query
`catalog(portal_type=portal_type, getKeyword=title)`. -/
def fallbackFilter (portal_type : String) (title : Option String) : ContentFilter :=
  [("portal_type", some portal_type), ("getKeyword", title)]

/-- `WorksheetImporter.get_object` (lines 318-341): `None` when both `title` and
`kwargs` are falsy; `None` on more than one match; on zero matches, retry with the
keyword filter when — and only when — `portal_type == 'AnalysisService'`, returning
the first fallback match if any; otherwise the single match. -/
def get_object (catalog : ContentFilter → List Entity) (portal_type : String)
    (title : Option String) (kwargs : List (String × String)) : Option Entity :=
  if !truthyTitle title && kwargs.isEmpty then none
  else
    let brains := catalog (primaryFilter portal_type title kwargs)
    if brains.length > 1 then none
    else if brains.length == 0 then
      if portal_type == "AnalysisService" then
        match catalog (fallbackFilter portal_type title) with
        | b :: _ => some b
        | [] => none
      else none
    else brains.head?

/-! ## Batch accumulator: `Analysis_Services.load_service_uncertainties`
(lines 1496-1526) and `Analysis_Services.write_bucket` (lines 1580-1586)

One data row of the `Analysis Service Uncertainties` sheet is modelled after entity
resolution: `service` is the UID of the service resolved by `get_object`
(lines 1507-1508), or `none` when no service was found (the row is then skipped with
a warning, lines 1509-1513); the three payload columns are carried verbatim.
The uncertainty store behind `getUncertainties`/`setUncertainties` is an abstract
map from service UID to the current list of payloads. -/

/-- One payload dict appended at lines 1517-1521. -/
structure Uncertainty where
  intercept_min : String
  intercept_max : String
  errorvalue : String
deriving DecidableEq

/-- One resolved row of the uncertainties sheet. -/
structure URow where
  service : Option String
  rangeMin : String
  rangeMax : String
  uncertaintyValue : String
deriving DecidableEq

/-- Lines 1518-1520: the payload built from a row. -/
def upayload (r : URow) : Uncertainty :=
  { intercept_min := r.rangeMin, intercept_max := r.rangeMax,
    errorvalue := r.uncertaintyValue }

/-- The accumulator `bucket`: dict from service UID to the ordered list of payloads
accumulated since the last flush. -/
abbrev Bucket := List (String × List Uncertainty)

/-- `bucket[uid]` with default `[]` (lines 1515-1516 initialise a missing key). -/
def bucketGet : Bucket → String → List Uncertainty
  | [], _ => []
  | (k, ps) :: bs, u => if k = u then ps else bucketGet bs u

/-- Lines 1515-1521: `if service_uid not in bucket: bucket[service_uid] = []` then
`bucket[service_uid].append(payload)`. -/
def bucketAdd : Bucket → String → Uncertainty → Bucket
  | [], u, p => [(u, [p])]
  | (k, ps) :: bs, u, p =>
    if k = u then (k, ps ++ [p]) :: bs else (k, ps) :: bucketAdd bs u p

/-- The per-service uncertainty store (`obj.getUncertainties()` for each UID). -/
abbrev Repo := String → List Uncertainty

/-- `Analysis_Services.write_bucket` (lines 1580-1586): for every `(uid, us)` item of
the bucket, read the target's current uncertainties, extend them with `us`, and
rewrite them. -/
def write_bucket (repo : Repo) (bucket : Bucket) : Repo :=
  bucket.foldl
    (fun r kv => fun uid => if uid = kv.1 then r uid ++ kv.2 else r uid) repo

/-- Observable outcome of one run of `load_service_uncertainties`: the final store,
the 1-based row counts at which an automatic flush (lines 1522-1524) fired, and
whether the unconditional-looking final flush (lines 1525-1526) actually ran. -/
structure UncertLoadResult where
  repo : Repo
  autoFlushCounts : List Nat
  finalFlush : Bool

/-- The loop of lines 1505-1526.  `count` is incremented for every data row — also
for rows whose service is not found (line 1506 precedes the lookup) — and is NEVER
reset at a flush; the automatic flush fires when `count > 500` after an append
(lines 1522-1524), writing the whole bucket and clearing it; at the end of the pass
the bucket is flushed only if it is non-empty (`if bucket:`; lines 1525-1526). -/
def loadLoop (repo : Repo) (bucket : Bucket) (count : Nat) (log : List Nat) :
    List URow → UncertLoadResult
  | [] =>
    if bucket.isEmpty then
      { repo := repo, autoFlushCounts := log.reverse, finalFlush := false }
    else
      { repo := write_bucket repo bucket, autoFlushCounts := log.reverse,
        finalFlush := true }
  | r :: rs =>
    let count1 := count + 1
    match r.service with
    | none => loadLoop repo bucket count1 log rs
    | some uid =>
      let bucket1 := bucketAdd bucket uid (upayload r)
      if count1 > 500 then
        loadLoop (write_bucket repo bucket1) [] count1 (count1 :: log) rs
      else
        loadLoop repo bucket1 count1 log rs

/-- `Analysis_Services.load_service_uncertainties` (lines 1496-1526), starting from
store `repo` with an empty bucket and `count = 0`. -/
def load_service_uncertainties (repo : Repo) (rows : List URow) : UncertLoadResult :=
  loadLoop repo [] 0 [] rows

/-! ## Required-column handling: `Invoice_Batches.Import` (lines 2408-2426)
versus `Sub_Groups.Import` (lines 344-355)

Rows are modelled by the fields each importer reads; values come from `get_rows`
records, so a missing column is the empty string. -/

/-- One row of the `Invoice Batches` sheet (`row['title']`, `row['start']`,
`row['end']`). -/
structure InvoiceRow where
  title : String
  start : String
  endDate : String
deriving DecidableEq

/-- `Invoice_Batches.Import` (lines 2408-2426): one object is created per row BEFORE
the checks (line 2411); a falsy `title`, `start` or `end` raises a plain `Exception`
immediately (lines 2412-2420), aborting the loop with the already-created objects
left in place.  Returns the number of objects created and the loop outcome. -/
def invoice_batches_import : List InvoiceRow → Nat → Nat × Except PyExc Unit
  | [], created => (created, .ok ())
  | r :: rs, created =>
    let created1 := created + 1
    if r.title = "" then (created1, .error (.exc "InvoiceBatch has no Title"))
    else if r.start = "" then (created1, .error (.exc "InvoiceBatch has no Start Date"))
    else if r.endDate = "" then (created1, .error (.exc "InvoiceBatch has no End Date"))
    else invoice_batches_import rs created1

/-- One row of the `Sub Groups` sheet. -/
structure SubGroupRow where
  title : String
  description : String
  sortKey : String
deriving DecidableEq

/-- `Sub_Groups.Import` (lines 344-355): a row with a falsy title is skipped
(`continue`), every other row creates one object; no exception is ever raised.
Returns the created rows in order and the loop outcome. -/
def sub_groups_import : List SubGroupRow → List SubGroupRow × Except PyExc Unit
  | [] => ([], .ok ())
  | r :: rs =>
    let rest := sub_groups_import rs
    if r.title = "" then rest else (r :: rest.1, rest.2)

/-! ## Numeric coercion: `WorksheetImporter.to_int` (lines 237-246) and
`WorksheetImporter.to_float` (lines 248-257)

The Python values these helpers receive are modelled by `PyV`; `int(x)` and
`float(x)` raise `TypeError` on `None` and `ValueError` on an unparsable string,
exactly the distinction the source's `except ValueError:` clause turns on.
Floats are modelled as rationals; the string parsers cover finite decimal literals
with an optional exponent (the inputs relevant to the claims). -/

/-- A Python value passed to the coercion helpers. -/
inductive PyV where
  | pynone
  | pyint (n : Int)
  | pyfloat (q : Rat)
  | pystr (s : String)
deriving DecidableEq

/-- Value of a digit list in base 10. -/
def digitsVal (l : List Char) : Nat :=
  l.foldl (fun n c => n * 10 + (c.toNat - 48)) 0

/-- Strip surrounding whitespace from a literal (Python's numeric constructors
accept surrounding whitespace). -/
def stripL (l : List Char) : List Char :=
  ((l.dropWhile isStripChar).reverse.dropWhile isStripChar).reverse

/-- Split off an optional leading sign. -/
def splitSign : List Char → Int × List Char
  | '-' :: rest => (-1, rest)
  | '+' :: rest => (1, rest)
  | l => (1, l)

/-- `int(s)` on a string: optional surrounding whitespace, optional sign, one or
more decimal digits; anything else raises `ValueError`. -/
def parsePyInt (s : String) : Option Int :=
  let (sign, digits) := splitSign (stripL s.toList)
  if digits.length > 0 && digits.all Char.isDigit then
    some (sign * (digitsVal digits : Int))
  else none

/-- Truncation toward zero, the behaviour of Python `int(float)`. -/
def ratTrunc (q : Rat) : Int := if q ≥ 0 then ⌊q⌋ else ⌈q⌉

/-- Python `int(value)`: `TypeError` on `None`, truncation on floats, base-10 parse
(`ValueError` on failure) on strings. -/
def py_int : PyV → Except PyExc Int
  | .pynone => .error (.typeError "int() argument must be a string or a number, not NoneType")
  | .pyint n => .ok n
  | .pyfloat q => .ok (ratTrunc q)
  | .pystr s =>
    match parsePyInt s with
    | some n => .ok n
    | none => .error (.valueError ("invalid literal for int() with base 10: " ++ s))

/-- Split a character list into the runs separated by characters matching `p`
(so `split (· == '.') "1.5"` gives `["1", "5"]`, and the empty list gives one
empty run, like Python's `str.split(sep)`). -/
def splitRuns (p : Char → Bool) : List Char → List (List Char)
  | [] => [[]]
  | c :: cs =>
    match splitRuns p cs with
    | [] => if p c then [[], []] else [[c]]
    | g :: gs => if p c then [] :: g :: gs else (c :: g) :: gs

/-- Unsigned decimal mantissa `d+`, `d+.d*`, `.d+` or `d*.d+` (at least one digit
overall), as a rational. -/
def parseMantissa (m : List Char) : Option Rat :=
  match splitRuns (fun c => c == '.') m with
  | [ip] =>
    if ip.length > 0 && ip.all Char.isDigit then some ((digitsVal ip : Int) : Rat)
    else none
  | [ip, fp] =>
    if (ip ++ fp).length > 0 && ip.all Char.isDigit && fp.all Char.isDigit then
      some (((digitsVal ip : Int) : Rat)
        + ((digitsVal fp : Int) : Rat) / ((10 : Rat) ^ fp.length))
    else none
  | _ => none

/-- Signed integer literal (for the exponent part of a float literal). -/
def parseExponent (l : List Char) : Option Int :=
  let (sign, digits) := splitSign l
  if digits.length > 0 && digits.all Char.isDigit then
    some (sign * (digitsVal digits : Int))
  else none

/-- `float(s)` on a string: optional surrounding whitespace, optional sign, decimal
mantissa, optional `e`/`E` exponent; anything else raises `ValueError`.
(Non-finite literals such as `inf`/`nan` are outside the model's scope.) -/
def parsePyFloat (s : String) : Option Rat :=
  let (isign, body) := splitSign (stripL s.toList)
  let sign : Rat := (isign : Rat)
  match splitRuns (fun c => c == 'e' || c == 'E') body with
  | [m] => (parseMantissa m).map (fun q => sign * q)
  | [m, e] => do
    let q ← parseMantissa m
    let ev ← parseExponent e
    pure (sign * q * (10 : Rat) ^ ev)
  | _ => none

/-- Python `float(value)`: `TypeError` on `None`, identity on numbers, literal parse
(`ValueError` on failure) on strings. -/
def py_float : PyV → Except PyExc Rat
  | .pynone => .error (.typeError "float() argument must be a string or a number")
  | .pyint n => .ok (n : Rat)
  | .pyfloat q => .ok q
  | .pystr s =>
    match parsePyFloat s with
    | some q => .ok q
    | none => .error (.valueError ("could not convert string to float: " ++ s))

/-- `WorksheetImporter.to_int` (lines 237-246): `try: return int(value)` with
`except ValueError:` — ONLY `ValueError` is caught (so `int(None)`'s `TypeError`
propagates); on `ValueError`, `try: return int(default) except Exception: return 0`
catches everything. -/
def to_int (value default : PyV) : Except PyExc Int :=
  match py_int value with
  | .ok n => .ok n
  | .error (.valueError _) =>
    match py_int default with
    | .ok n => .ok n
    | .error _ => .ok 0
  | .error e => .error e

/-- `WorksheetImporter.to_float` (lines 248-257): same structure as `to_int`,
with `float` and default `0.0`. -/
def to_float (value default : PyV) : Except PyExc Rat :=
  match py_float value with
  | .ok q => .ok q
  | .error (.valueError _) =>
    match py_float default with
    | .ok q => .ok q
    | .error _ => .ok 0
  | .error e => .error e

/-! ## Specification-side characterizations and concrete instances -/

/-- The keys of a bucket, in insertion order. -/
def bucketKeys (b : Bucket) : List String := b.map Prod.fst

/-- The payloads added for target `uid` over a row sequence, in append order:
the payloads of exactly the rows that resolved to `uid`. -/
def addedFor (uid : String) (rows : List URow) : List Uncertainty :=
  (rows.filter (fun r => r.service == some uid)).map upayload

/-- The row counts at which `load_service_uncertainties` fires an automatic flush,
read off the source's control flow: starting from running count `c`, a flush fires
after each row that resolved to a service and whose running count exceeds 500
(the count is shared across all rows and never reset). -/
def expectedFlushes : Nat → List URow → List Nat
  | _, [] => []
  | c, r :: rs =>
    if 500 < c + 1 ∧ r.service.isSome = true then
      (c + 1) :: expectedFlushes (c + 1) rs
    else expectedFlushes (c + 1) rs

/-- The uncertainties sheet of the spec's batch-accumulator test: 1200 rows, all
resolving to the same service. -/
def rows1200 : List URow :=
  List.replicate 1200 { service := some "svc", rangeMin := "0", rangeMax := "10",
                        uncertaintyValue := "0.5" }

/-- The spec's concrete row-normalizer example: a record with columns
`Physical_Address=789 Elm` and `Physical_City=Springfield`. -/
def physRowEx : Dict :=
  processRow
    [Cell.str "title", Cell.str "Physical_Address", Cell.str "Physical_City"]
    [Cell.str "x", Cell.str "789 Elm", Cell.str "Springfield"]

/-- The spec's asset-resolver example filesystem: only `cert.PDF` exists. -/
def fsCertPDF : String → Option String :=
  fun p => if p = "cert.PDF" then some "BYTES" else none

/-- A filesystem holding both `a.txt` and `a.PDF`, to observe the probe order
(all lower-case extensions are tried before any upper-case one). -/
def fsBoth : String → Option String :=
  fun p => if p = "a.txt" then some "TXT" else if p = "a.PDF" then some "PDFDATA" else none

/-- A catalog in which every query matches two entities. -/
def catalogTwo : ContentFilter → List Entity := fun _ => ["obj1", "obj2"]

/-- A catalog with no primary match for the `Iron` title but one keyword match:
only the `getKeyword` fallback query returns an entity. -/
def svcCatalog : ContentFilter → List Entity :=
  fun cf => if cf = fallbackFilter "AnalysisService" (some "Iron") then ["svc1"] else []

deriving instance DecidableEq for Except

/-! ## Dictionary lemmas -/

theorem dget_dset (d : Dict) (k : Cell) (v : RVal) (key : Cell) :
    dget (dset d k v) key = if k = key then some v else dget d key := by
  induction d with
  | nil => by_cases h : k = key <;> simp [dset, dget, h]
  | cons e rest ih =>
    obtain ⟨a, b⟩ := e
    simp only [dset] at ih ⊢
    rw [List.cons_append]
    by_cases h : k = key
    · subst h
      simp [dget, ih]
    · simp [dget, ih, h]

theorem dmem_dset (d : Dict) (k : Cell) (v : RVal) (key : Cell) :
    dmem (dset d k v) key = (dmem d key || decide (k = key)) := by
  simp [dmem, dset]

theorem dmem_zipDict (h : List Cell) (vs : List Value) (key : Cell) :
    dmem (zipDict h vs) key = true → key ∈ h := by
  induction h generalizing vs with
  | nil => simp [zipDict, dmem]
  | cons a rest ih =>
    cases vs with
    | nil => simp [zipDict, dmem]
    | cons v vrest =>
      simp only [zipDict, List.zip_cons_cons, List.map_cons, dmem, List.any_cons] at *
      intro hm
      rcases Bool.or_eq_true _ _ |>.mp hm with h1 | h2
      · exact (by simpa using h1 : a = key) ▸ List.mem_cons_self a rest
      · exact List.mem_cons_of_mem a (ih vrest (by simpa [dmem] using h2))

/-! ## Address-expansion lemmas -/

theorem dget_addrStep_ne (d : Dict) (t : String) (key : Cell) (h : key ≠ Cell.str t) :
    dget (addrStep d t) key = dget d key := by
  have h' : ¬(Cell.str t = key) := fun e => h e.symm
  rw [addrStep]
  split <;> simp [dget_dset, h']

theorem dmem_addrStep_ne (d : Dict) (t : String) (key : Cell) (h : key ≠ Cell.str t) :
    dmem (addrStep d t) key = dmem d key := by
  have h' : ¬(Cell.str t = key) := fun e => h e.symm
  rw [addrStep]
  split <;> simp [dmem_dset, h']

theorem addrSub_dset_ne (d : Dict) (t : String) (k : Cell) (v : RVal)
    (h : ∀ a ∈ addr_keys, Cell.str (t ++ "_" ++ a) ≠ k) :
    addrSub (dset d k v) t = addrSub d t := by
  unfold addrSub
  refine List.map_congr_left (fun a ha => ?_)
  have h' : ¬(k = Cell.str (t ++ "_" ++ a)) := fun e => h a ha e.symm
  rw [dget_dset]
  simp [h']

theorem addrSub_addrStep_ne (d : Dict) (t t' : String)
    (h : ∀ a ∈ addr_keys, Cell.str (t ++ "_" ++ a) ≠ Cell.str t') :
    addrSub (addrStep d t') t = addrSub d t := by
  rw [addrStep]
  split
  · rw [addrSub_dset_ne _ _ _ _ h, addrSub_dset_ne _ _ _ _ h]
  · rw [addrSub_dset_ne _ _ _ _ h]

theorem dget_addrStep_self (d : Dict) (t : String)
    (h1 : Cell.str (t ++ "_Address") ≠ Cell.str t)
    (h2 : ∀ a ∈ addr_keys, Cell.str (t ++ "_" ++ a) ≠ Cell.str t) :
    dget (addrStep d t) (Cell.str t) =
      some (RVal.sub (if dmem d (Cell.str (t ++ "_Address")) then addrSub d t else [])) := by
  have h1' : ¬(Cell.str t = Cell.str (t ++ "_Address")) := fun e => h1 e.symm
  rw [addrStep]
  have hm : dmem (dset d (Cell.str t) (RVal.sub [])) (Cell.str (t ++ "_Address"))
      = dmem d (Cell.str (t ++ "_Address")) := by
    simp [dmem_dset, h1']
  rw [hm]
  by_cases hc : dmem d (Cell.str (t ++ "_Address")) = true
  · rw [if_pos hc, if_pos hc, dget_dset, if_pos rfl, addrSub_dset_ne _ _ _ _ h2]
  · rw [if_neg hc, if_neg hc, dget_dset, if_pos rfl]

theorem dget_addrExpand (d : Dict) (t : String) (ht : t ∈ addr_types) :
    dget (addrExpand d) (Cell.str t) =
      some (RVal.sub (if dmem d (Cell.str (t ++ "_Address")) then addrSub d t else [])) := by
  have hfold : addrExpand d = addrStep (addrStep (addrStep d "Physical") "Postal") "Billing" :=
    rfl
  rw [hfold]
  simp only [addr_types, List.mem_cons, List.mem_singleton, List.not_mem_nil, or_false] at ht
  rcases ht with rfl | rfl | rfl
  · rw [dget_addrStep_ne _ "Billing" _ (by decide), dget_addrStep_ne _ "Postal" _ (by decide),
      dget_addrStep_self _ "Physical" (by decide) (by decide)]
  · rw [dget_addrStep_ne _ "Billing" _ (by decide),
      dget_addrStep_self _ "Postal" (by decide) (by decide),
      dmem_addrStep_ne _ "Physical" _ (by decide),
      addrSub_addrStep_ne _ "Postal" "Physical" (by decide)]
  · rw [dget_addrStep_self _ "Billing" (by decide) (by decide),
      dmem_addrStep_ne _ "Postal" _ (by decide), dmem_addrStep_ne _ "Physical" _ (by decide),
      addrSub_addrStep_ne _ "Billing" "Postal" (by decide),
      addrSub_addrStep_ne _ "Billing" "Physical" (by decide)]

/-! ## Row-normalizer loop lemmas -/

theorem mem_rowsFrom (h : List Cell) (sr : Nat) :
    ∀ (rs : List (List Cell)) (cur n : Nat) (rec : Dict),
      (n, rec) ∈ rowsFrom h sr cur rs →
      sr < n ∧ cur < n ∧ ∃ cells ∈ rs, rec = processRow h cells := by
  intro rs
  induction rs with
  | nil => intro cur n rec hm; simp [rowsFrom] at hm
  | cons r rest ih =>
    intro cur n rec hm
    rw [rowsFrom] at hm
    by_cases hc : cur + 1 ≤ sr
    · simp only [hc, if_true] at hm
      obtain ⟨hsr, hcur, cells, hcells, hrec⟩ := ih (cur + 1) n rec hm
      exact ⟨hsr, by omega, cells, List.mem_cons_of_mem r hcells, hrec⟩
    · simp only [hc, if_false] at hm
      rcases List.mem_cons.mp hm with heq | htail
      · obtain ⟨hn, hrec⟩ := Prod.mk.injEq .. ▸ heq
        exact ⟨by omega, by omega, r, List.mem_cons_self r rest, hrec.symm ▸ rfl⟩
      · obtain ⟨hsr, hcur, cells, hcells, hrec⟩ := ih (cur + 1) n rec htail
        exact ⟨hsr, by omega, cells, List.mem_cons_of_mem r hcells, hrec⟩

theorem rowsFrom_head (h : List Cell) (sr : Nat) :
    ∀ (rs : List (List Cell)) (cur : Nat), cur ≤ sr → sr + 1 - cur ≤ rs.length →
      ∃ rec, (rowsFrom h sr cur rs).head? = some (sr + 1, rec) := by
  intro rs
  induction rs with
  | nil => intro cur h1 h2; simp only [List.length_nil] at h2; omega
  | cons r rest ih =>
    intro cur h1 h2
    rw [rowsFrom]
    by_cases hc : cur + 1 ≤ sr
    · simp only [hc, if_true]
      exact ih (cur + 1) hc (by simp only [List.length_cons] at h2; omega)
    · have hcur : cur = sr := by omega
      subst hcur
      simp only [hc, if_false]
      exact ⟨processRow h r, rfl⟩

/-! ## Claims about the row normalizer -/

/-- C5 counterexample: the claim quantifies over every start offset, but at
`startrow = 0` the first yielded row is row 2 (row 1 is always consumed as the
header), not row `startrow + 1 = 1` — so "the row with index startrow+1 is the
first one yielded" fails at this concrete input. -/
theorem get_rows_startrow_zero_cex :
    ((get_rows 0 [[Cell.str "h"], [Cell.str "v"]]).map Prod.fst = [2]) ∧ (2 : Nat) ≠ 0 + 1 := by
  decide

/-- C5 (amended): for every worksheet and start offset, no yielded row has index at
or before `startrow`, and row 1 (the header) is never yielded; moreover, for every
start offset ≥ 1 (all call sites use 3), if the sheet has at least `startrow + 1`
rows then the first yielded row is exactly row `startrow + 1`. -/
theorem get_rows_startrow_boundary :
    (∀ (sr : Nat) (ws : List (List Cell)) (n : Nat) (rec : Dict),
        (n, rec) ∈ get_rows sr ws → sr < n ∧ 2 ≤ n) ∧
    (∀ (sr : Nat) (ws : List (List Cell)), 1 ≤ sr → sr + 1 ≤ ws.length →
        ∃ rec, (get_rows sr ws).head? = some (sr + 1, rec)) := by
  constructor
  · intro sr ws n rec hmem
    cases ws with
    | nil => simp [get_rows] at hmem
    | cons hrow rest =>
      obtain ⟨hsr, hcur, -⟩ := mem_rowsFrom hrow sr rest 1 n rec hmem
      exact ⟨hsr, by omega⟩
  · intro sr ws h1 h2
    cases ws with
    | nil => simp only [List.length_nil] at h2; omega
    | cons hrow rest =>
      exact rowsFrom_head hrow sr rest 1 h1
        (by simp only [List.length_cons] at h2; omega)

/-- Witness for C5's amended theorem at a concrete sheet: with `startrow = 3` and a
5-row sheet, every yielded row has index above 3 and the first yielded row is row 4. -/
theorem get_rows_startrow_boundary_witness :
    (3 < 4 ∧ 2 ≤ 4) ∧
    (∃ rec, (get_rows 3 [[Cell.str "title"], [Cell.str "a"], [Cell.str "b"],
        [Cell.str "c"], [Cell.str "d"]]).head? = some (4, rec)) :=
  ⟨get_rows_startrow_boundary.1 3
      [[Cell.str "title"], [Cell.str "a"], [Cell.str "b"], [Cell.str "c"], [Cell.str "d"]]
      4 (processRow [Cell.str "title"] [Cell.str "c"]) (by decide),
   get_rows_startrow_boundary.2 3
      [[Cell.str "title"], [Cell.str "a"], [Cell.str "b"], [Cell.str "c"], [Cell.str "d"]]
      (by decide) (by decide)⟩

/-- C3 counterexample: on the spec's own record (`Physical_Address=789 Elm`,
`Physical_City=Springfield`) the nested mapping does NOT have lowercase sub-keys:
`record["Physical"]` is not the claimed lowercase dictionary (line 197 writes the
capitalized `key`, not `key.lower()`). -/
theorem get_rows_address_lowercase_cex :
    dget physRowEx (Cell.str "Physical") ≠
      some (RVal.sub [("address", "789 Elm"), ("city", "Springfield"), ("state", ""),
        ("district", ""), ("zip", ""), ("country", "")]) := by
  decide

/-- C3 (amended): the nested mapping uses the CAPITALIZED sub-keys `Address`, `City`,
`State`, `District`, `Zip`, `Country`; on the spec's concrete record,
`record["Physical"]` maps `Address` to `789 Elm`, `City` to `Springfield`, and the
absent sub-columns to empty strings (never omitted); in general, whenever the
`<t>_Address` column exists, the category entry is a nested mapping with exactly
those six capitalized keys, in that order. -/
theorem get_rows_address_nested_capitalized :
    (dget physRowEx (Cell.str "Physical") =
      some (RVal.sub [("Address", "789 Elm"), ("City", "Springfield"), ("State", ""),
        ("District", ""), ("Zip", ""), ("Country", "")])) ∧
    (∀ (headers cells : List Cell) (t : String), t ∈ addr_types →
      dmem (zipDict headers (cells.map processCell)) (Cell.str (t ++ "_Address")) = true →
      ∃ a b c d2 e f, dget (processRow headers cells) (Cell.str t) =
        some (RVal.sub [("Address", a), ("City", b), ("State", c), ("District", d2),
          ("Zip", e), ("Country", f)])) := by
  constructor
  · decide
  · intro headers cells t ht hd
    rw [processRow, dget_addrExpand _ t ht, hd]
    simp only [if_true, addrSub, addr_keys, List.map_cons, List.map_nil]
    exact ⟨_, _, _, _, _, _, rfl⟩

/-- Witness for C3's amended theorem: applying its general part to a one-column
sheet row with a `Postal_Address` header. -/
theorem get_rows_address_nested_capitalized_witness :
    ∃ a b c d2 e f,
      dget (processRow [Cell.str "Postal_Address"] [Cell.str "12 High St"])
          (Cell.str "Postal") =
        some (RVal.sub [("Address", a), ("City", b), ("State", c), ("District", d2),
          ("Zip", e), ("Country", f)]) :=
  get_rows_address_nested_capitalized.2 [Cell.str "Postal_Address"] [Cell.str "12 High St"]
    "Postal" (by decide) (by decide)

/-- C10: every record yielded by `get_rows` binds each of the keys `Physical`,
`Postal`, `Billing` to a nested mapping; when the sheet has no `<t>_Address` header
column, that mapping is empty — consumers indexing these keys never hit a missing
key. -/
theorem get_rows_address_categories_present :
    ∀ (hrow : List Cell) (rest : List (List Cell)) (sr n : Nat) (rec : Dict) (t : String),
      (n, rec) ∈ get_rows sr (hrow :: rest) → t ∈ addr_types →
      ∃ m, dget rec (Cell.str t) = some (RVal.sub m) ∧
        (Cell.str (t ++ "_Address") ∉ hrow → m = []) := by
  intro hrow rest sr n rec t hmem ht
  obtain ⟨-, -, cells, hcells, hrec⟩ := mem_rowsFrom hrow sr rest 1 n rec hmem
  subst hrec
  rw [processRow, dget_addrExpand _ t ht]
  refine ⟨_, rfl, fun hna => ?_⟩
  by_cases hd : dmem (zipDict hrow (List.map processCell cells))
      (Cell.str (t ++ "_Address")) = true
  · exact absurd (dmem_zipDict _ _ _ hd) hna
  · rw [Bool.not_eq_true] at hd
    simp [hd]

/-- Witness for C10 at a concrete sheet with no address headers: the `Postal`
entry of the yielded record exists and is the empty mapping. -/
theorem get_rows_address_categories_present_witness :
    ∃ m, dget (processRow [Cell.str "title"] [Cell.str "a"]) (Cell.str "Postal") =
        some (RVal.sub m) ∧
      (Cell.str ("Postal" ++ "_Address") ∉ [Cell.str "title"] → m = []) :=
  get_rows_address_categories_present [Cell.str "title"] [[Cell.str "a"]] 0 2
    (processRow [Cell.str "title"] [Cell.str "a"]) "Postal" (by decide) (by decide)

/-! ## Claims about the asset resolver -/

theorem probe_ext_none (fs : String → Option String) (path : String) :
    ∀ exts : List String, (∀ e ∈ exts, fs (path ++ "." ++ e) = none) →
      probe_ext fs path exts = none := by
  intro exts
  induction exts with
  | nil => intro _; rfl
  | cons e es ih =>
    intro h
    rw [probe_ext, h e (List.mem_cons_self e es)]
    exact ih (fun x hx => h x (List.mem_cons_of_mem e hx))

/-- C4 counterexample: when no candidate exists, `read_file` does not report
not-found without throwing — it raises `IOError` (lines 109-110), here at the
concrete request `cert` against an empty filesystem. -/
theorem read_file_not_found_raises_cex :
    read_file (fun _ => none) "cert" =
      Except.error (PyExc.ioError ("File not found: cert. Allowed extensions: "
        ++ "pdf,jpg,jpeg,png,gif,ods,odt,xlsx,doc,docx,xls,csv,txt,"
        ++ "PDF,JPG,JPEG,PNG,GIF,ODS,ODT,XLSX,DOC,DOCX,XLS,CSV,TXT")) := by
  decide

/-- C4 (amended): an existing file at `base_path/name` is returned directly; the
thirteen extensions are probed in a fixed order (all lower-case, then all
upper-case) and the first existing candidate is returned — so requesting `cert`
when only `cert.PDF` exists succeeds, and with both `a.txt` and `a.PDF` present
the lower-case `txt` candidate wins; when no candidate exists, `read_file` raises
`IOError`, which `WorksheetImporter.__call__` catches and turns into a logged
warning, so the condition is recoverable at the import level (the run continues)
even though the resolver itself throws. -/
theorem read_file_resolution :
    (∀ (fs : String → Option String) (path data : String),
        fs path = some data → read_file fs path = Except.ok data) ∧
    (read_file fsCertPDF "cert" = Except.ok "BYTES") ∧
    (read_file fsBoth "a" = Except.ok "TXT") ∧
    (∀ (fs : String → Option String) (path : String),
        fs path = none → (∀ e ∈ allowed_ext, fs (path ++ "." ++ e) = none) →
        ∃ m, read_file fs path = Except.error (PyExc.ioError m) ∧
          worksheet_importer_call (Except.error (PyExc.ioError m))
            = CallResult.completed true) := by
  refine ⟨?_, by decide, by decide, ?_⟩
  · intro fs path data h
    simp only [read_file, h]
  · intro fs path h1 h2
    exact ⟨"File not found: " ++ path ++ ". Allowed extensions: " ++ joinComma allowed_ext,
      by simp only [read_file, h1, probe_ext_none fs path allowed_ext h2], rfl⟩

/-- Witness for C4's amended theorem: a direct hit is returned, and a miss on
every candidate yields a raised-then-caught `IOError`. -/
theorem read_file_resolution_witness :
    read_file (fun _ => some "DATA") "report" = Except.ok "DATA" ∧
    (∃ m, read_file (fun _ => none) "missing" = Except.error (PyExc.ioError m) ∧
      worksheet_importer_call (Except.error (PyExc.ioError m))
        = CallResult.completed true) :=
  ⟨read_file_resolution.1 (fun _ => some "DATA") "report" "DATA" rfl,
   read_file_resolution.2.2.2 (fun _ => none) "missing" rfl (fun _ _ => rfl)⟩

/-! ## Claims about the entity resolver -/

/-- C6: whenever the primary catalog query matches more than one entity,
`get_object` returns `None` (lines 330-332) — it never chooses among candidates. -/
theorem get_object_ambiguous_none :
    ∀ (catalog : ContentFilter → List Entity) (pt : String) (title : Option String)
      (kwargs : List (String × String)),
      1 < (catalog (primaryFilter pt title kwargs)).length →
      get_object catalog pt title kwargs = none := by
  intro catalog pt title kwargs h
  simp only [get_object]
  split <;> rfl

/-- Witness for C6 at a concrete catalog in which every query matches two
entities. -/
theorem get_object_ambiguous_none_witness :
    get_object catalogTwo "Client" (some "t") [] = none :=
  get_object_ambiguous_none catalogTwo "Client" (some "t") [] (by decide)

/-- C7: on zero primary matches, the resolver retries with the `getKeyword`
secondary key exactly for the kind `AnalysisService` (lines 333-337), returning
the first fallback match if any; for every other kind, zero matches yields `None`
immediately, with no fallback (lines 338-339). -/
theorem get_object_zero_matches :
    ∀ (catalog : ContentFilter → List Entity) (pt : String) (title : Option String)
      (kwargs : List (String × String)),
      (truthyTitle title = true ∨ kwargs ≠ []) →
      catalog (primaryFilter pt title kwargs) = [] →
      ((pt = "AnalysisService" →
          get_object catalog pt title kwargs
            = (catalog (fallbackFilter pt title)).head?) ∧
       (pt ≠ "AnalysisService" → get_object catalog pt title kwargs = none)) := by
  intro catalog pt title kwargs hg hz
  have hguard : ¬((!truthyTitle title && kwargs.isEmpty) = true) := by
    rcases hg with h | h
    · simp [h]
    · cases kwargs with
      | nil => exact absurd rfl h
      | cons a l => simp [List.isEmpty]
  constructor
  · intro hpt
    subst hpt
    simp only [get_object, hz, if_neg hguard, List.length_nil]
    norm_num
    cases catalog (fallbackFilter "AnalysisService" title) <;> rfl
  · intro hpt
    have hbeq : (pt == "AnalysisService") = false := by
      simpa using hpt
    simp only [get_object, hz, if_neg hguard, List.length_nil, hbeq]
    norm_num

/-- Witness for C7: an `AnalysisService` lookup with no primary match resolves
through the keyword fallback, while a `Department` lookup with no match yields
`None`. -/
theorem get_object_zero_matches_witness :
    get_object svcCatalog "AnalysisService" (some "Iron") []
      = (svcCatalog (fallbackFilter "AnalysisService" (some "Iron"))).head? ∧
    get_object (fun _ => []) "Department" (some "Iron") [] = none :=
  ⟨(get_object_zero_matches svcCatalog "AnalysisService" (some "Iron") []
      (Or.inl (by decide)) (by decide)).1 rfl,
   (get_object_zero_matches (fun _ => []) "Department" (some "Iron") []
      (Or.inl (by decide)) rfl).2 (by decide)⟩

/-! ## Claim about the numeric coercion helpers -/

/-- C9: the claim says `to_int`/`to_float` return a definite number for ALL input
types including `None` and never propagate an exception, and the source's own
docstrings say "Returns default if the conversion fails"; but the code catches only
`ValueError`, so `int(None)`/`float(None)`, which raise `TypeError`, propagate the
exception to the caller.  The remaining conjuncts confirm the claimed
parsed-value / parsed-default / 0 cascade on the `ValueError` path. -/
theorem to_int_to_float_none_propagates :
    to_int PyV.pynone (PyV.pyint 0) =
      Except.error (PyExc.typeError
        "int() argument must be a string or a number, not NoneType") ∧
    to_float PyV.pynone (PyV.pyint 0) =
      Except.error (PyExc.typeError
        "float() argument must be a string or a number") ∧
    to_int (PyV.pystr "7") (PyV.pyint 0) = Except.ok 7 ∧
    to_int (PyV.pystr "3.5") (PyV.pystr "2") = Except.ok 2 ∧
    to_int (PyV.pystr "abc") PyV.pynone = Except.ok 0 ∧
    to_float (PyV.pystr "xyz") (PyV.pyint 2) = Except.ok 2 ∧
    to_float (PyV.pystr "xyz") PyV.pynone = Except.ok 0 ∧
    (∀ q : Rat, to_float (PyV.pyfloat q) (PyV.pyint 0) = Except.ok q) := by
  exact ⟨by decide, by decide, by decide, by decide, by decide, by decide, by decide,
    fun q => rfl⟩

/-! ## Batch-accumulator lemmas -/

theorem bucketGet_not_mem (b : Bucket) (u : String) (h : u ∉ bucketKeys b) :
    bucketGet b u = [] := by
  induction b with
  | nil => rfl
  | cons kv bs ih =>
    obtain ⟨k, ps⟩ := kv
    simp only [bucketKeys, List.map_cons, List.mem_cons, not_or] at h
    rw [bucketGet, if_neg (fun e => h.1 e.symm)]
    exact ih h.2

theorem bucketGet_bucketAdd (b : Bucket) (u : String) (p : Uncertainty) (key : String) :
    bucketGet (bucketAdd b u p) key =
      if key = u then bucketGet b key ++ [p] else bucketGet b key := by
  induction b with
  | nil =>
    by_cases h : key = u
    · subst h; simp [bucketAdd, bucketGet]
    · simp [bucketAdd, bucketGet, h, Ne.symm h]
  | cons kv bs ih =>
    obtain ⟨k, ps⟩ := kv
    by_cases hk : k = u
    · subst hk
      by_cases h : key = k
      · subst h; simp [bucketAdd, bucketGet]
      · simp [bucketAdd, bucketGet, h, Ne.symm h]
    · by_cases h : k = key
      · subst h
        simp [bucketAdd, bucketGet, hk, Ne.symm hk]
      · simp [bucketAdd, bucketGet, hk, h, ih]

theorem bucketKeys_bucketAdd (b : Bucket) (u : String) (p : Uncertainty) :
    bucketKeys (bucketAdd b u p) =
      if u ∈ bucketKeys b then bucketKeys b else bucketKeys b ++ [u] := by
  induction b with
  | nil => simp [bucketAdd, bucketKeys]
  | cons kv bs ih =>
    obtain ⟨k, ps⟩ := kv
    by_cases hk : k = u
    · subst hk
      simp [bucketAdd, bucketKeys]
    · simp only [bucketAdd, if_neg hk, bucketKeys, List.map_cons] at ih ⊢
      rw [ih]
      by_cases hm : u ∈ List.map Prod.fst bs
      · simp [hm, Ne.symm hk]
      · simp [hm, Ne.symm hk]

theorem bucketKeys_nodup_bucketAdd (b : Bucket) (u : String) (p : Uncertainty)
    (h : (bucketKeys b).Nodup) : (bucketKeys (bucketAdd b u p)).Nodup := by
  rw [bucketKeys_bucketAdd]
  by_cases hm : u ∈ bucketKeys b
  · simpa [hm] using h
  · rw [if_neg hm]
    exact h.append (List.nodup_singleton u) (by simp [List.disjoint_singleton, hm])

theorem write_bucket_get (b : Bucket) :
    ∀ (repo : Repo) (uid : String), (bucketKeys b).Nodup →
      write_bucket repo b uid = repo uid ++ bucketGet b uid := by
  induction b with
  | nil => intro repo uid _; simp [write_bucket, bucketGet]
  | cons kv bs ih =>
    obtain ⟨k, ps⟩ := kv
    intro repo uid h
    simp only [bucketKeys, List.map_cons, List.nodup_cons] at h
    simp only [write_bucket, List.foldl_cons]
    have step := ih (fun v => if v = k then repo v ++ ps else repo v) uid h.2
    simp only [write_bucket] at step
    rw [step]
    by_cases hu : uid = k
    · subst hu
      rw [if_pos rfl, bucketGet, if_pos rfl, bucketGet_not_mem bs uid h.1,
        List.append_nil]
    · rw [if_neg hu, bucketGet, if_neg (fun e => hu e.symm)]

theorem loadLoop_repo (rows : List URow) :
    ∀ (repo : Repo) (bucket : Bucket) (count : Nat) (log : List Nat) (uid : String),
      (bucketKeys bucket).Nodup →
      (loadLoop repo bucket count log rows).repo uid
        = repo uid ++ bucketGet bucket uid ++ addedFor uid rows := by
  induction rows with
  | nil =>
    intro repo bucket count log uid h
    rw [loadLoop]
    by_cases hb : bucket.isEmpty = true
    · rw [if_pos hb, List.isEmpty_iff.mp hb]
      simp [bucketGet, addedFor]
    · rw [if_neg hb]
      simp [write_bucket_get bucket repo uid h, addedFor]
  | cons r rs ih =>
    intro repo bucket count log uid h
    rw [loadLoop]
    cases hs : r.service with
    | none =>
      simp only []
      rw [ih repo bucket (count + 1) log uid h]
      simp [addedFor, List.filter_cons, hs]
    | some u =>
      simp only []
      by_cases hc : count + 1 > 500
      · rw [if_pos hc, ih _ [] (count + 1) _ uid (by simp [bucketKeys]),
          write_bucket_get _ repo uid (bucketKeys_nodup_bucketAdd bucket u _ h),
          bucketGet_bucketAdd]
        by_cases hu : uid = u
        · subst hu
          rw [if_pos rfl]
          simp [addedFor, List.filter_cons, hs, bucketGet]
        · rw [if_neg hu]
          simp [addedFor, List.filter_cons, hs, hu, Ne.symm hu, bucketGet]
      · rw [if_neg hc,
          ih repo _ (count + 1) log uid (bucketKeys_nodup_bucketAdd bucket u _ h),
          bucketGet_bucketAdd]
        by_cases hu : uid = u
        · subst hu
          rw [if_pos rfl]
          simp [addedFor, List.filter_cons, hs]
        · rw [if_neg hu]
          simp [addedFor, List.filter_cons, hs, hu, Ne.symm hu]

theorem loadLoop_counts (rows : List URow) :
    ∀ (repo : Repo) (bucket : Bucket) (count : Nat) (log : List Nat),
      (loadLoop repo bucket count log rows).autoFlushCounts
        = log.reverse ++ expectedFlushes count rows := by
  induction rows with
  | nil =>
    intro repo bucket count log
    rw [loadLoop]
    by_cases hb : bucket.isEmpty = true
    · rw [if_pos hb]; simp [expectedFlushes]
    · rw [if_neg hb]; simp [expectedFlushes]
  | cons r rs ih =>
    intro repo bucket count log
    rw [loadLoop]
    cases hs : r.service with
    | none =>
      simp only []
      rw [ih]
      simp [expectedFlushes, hs]
    | some u =>
      simp only []
      by_cases hc : count + 1 > 500
      · rw [if_pos hc, ih]
        simp [expectedFlushes, hs, hc]
      · rw [if_neg hc, ih]
        simp [expectedFlushes, hs, hc]

/-! ## Claims about the batch accumulator -/

/-- C2: over a whole run, each target receives exactly the payloads added for it —
none lost, none written twice, per-target append order preserved: the final store
value for any uid is its initial value extended by the payloads of exactly the rows
that resolved to that uid, in row order. -/
theorem load_service_uncertainties_exact :
    ∀ (repo0 : Repo) (rows : List URow) (uid : String),
      (load_service_uncertainties repo0 rows).repo uid
        = repo0 uid ++ addedFor uid rows := by
  intro repo0 rows uid
  rw [load_service_uncertainties,
    loadLoop_repo rows repo0 [] 0 [] uid (by simp [bucketKeys])]
  simp [bucketGet]

set_option maxRecDepth 100000 in
/-- C1 counterexample: adding 1200 payloads does NOT produce exactly 2 automatic
flushes plus a final flush — because `count` is never reset (line 1522 tests
`count > 500` against the running total), the run fires 700 automatic flushes
(one per addition from the 501st on) and the pass-end flush is skipped because the
bucket is empty. -/
theorem load_service_uncertainties_1200_cex :
    (load_service_uncertainties (fun _ => []) rows1200).autoFlushCounts.length = 700 ∧
    (load_service_uncertainties (fun _ => []) rows1200).autoFlushCounts.length ≠ 2 ∧
    (load_service_uncertainties (fun _ => []) rows1200).finalFlush = false := by
  decide

set_option maxRecDepth 100000 in
/-- C1 (amended): the automatic whole-accumulator flush fires after each appended
payload whose running row count exceeds 500, where the count tallies every data row
since the start of the pass (including skipped ones) and is never reset by a flush;
hence 1200 added payloads produce 700 automatic flushes, at additions 501 through
1200, and the pass-end flush writes nothing (the bucket is empty, so `if bucket:`
skips it). -/
theorem load_service_uncertainties_flush_amended :
    (∀ (repo0 : Repo) (rows : List URow),
        (load_service_uncertainties repo0 rows).autoFlushCounts
          = expectedFlushes 0 rows) ∧
    (load_service_uncertainties (fun _ => []) rows1200).autoFlushCounts
      = List.range' 501 700 ∧
    (load_service_uncertainties (fun _ => []) rows1200).finalFlush = false := by
  refine ⟨?_, by decide, by decide⟩
  intro repo0 rows
  rw [load_service_uncertainties, loadLoop_counts]
  simp

/-! ## Claims about required-column handling -/

/-- C8: a missing (empty) `title`, `start` or `end` in any Invoice Batches row makes
the import raise a plain `Exception`, which `WorksheetImporter.__call__` does NOT
catch (only `IOError` is), so the run aborts; by contrast, `Sub_Groups.Import`
merely skips a row with a missing title and never fails. -/
theorem invoice_batches_missing_field_fatal :
    (∀ (rows : List InvoiceRow) (created : Nat) (r : InvoiceRow), r ∈ rows →
        (r.title = "" ∨ r.start = "" ∨ r.endDate = "") →
        ∃ m, (invoice_batches_import rows created).2 = Except.error (PyExc.exc m) ∧
          worksheet_importer_call (Except.error (PyExc.exc m))
            = CallResult.raised (PyExc.exc m)) ∧
    (∀ (rows : List SubGroupRow),
        (sub_groups_import rows).2 = Except.ok () ∧
        (sub_groups_import rows).1 = rows.filter (fun r => !(r.title == ""))) := by
  constructor
  · intro rows
    induction rows with
    | nil => intro created r hr; simp at hr
    | cons x rs ih =>
      intro created r hr hbad
      simp only [invoice_batches_import]
      by_cases h1 : x.title = ""
      · rw [if_pos h1]; exact ⟨_, rfl, rfl⟩
      · rw [if_neg h1]
        by_cases h2 : x.start = ""
        · rw [if_pos h2]; exact ⟨_, rfl, rfl⟩
        · rw [if_neg h2]
          by_cases h3 : x.endDate = ""
          · rw [if_pos h3]; exact ⟨_, rfl, rfl⟩
          · rw [if_neg h3]
            rcases List.mem_cons.mp hr with rfl | htail
            · tauto
            · exact ih (created + 1) r htail hbad
  · intro rows
    induction rows with
    | nil => exact ⟨rfl, rfl⟩
    | cons x rs ih =>
      simp only [sub_groups_import]
      by_cases h : x.title = ""
      · simp [h, List.filter_cons, ih.1, ih.2]
      · simp [h, List.filter_cons, ih.1, ih.2]

/-- Witness for C8: a sheet whose second row lacks a title aborts the
invoice-batch run with an uncaught `Exception`, while a sub-group sheet with a
missing title just skips that row. -/
theorem invoice_batches_missing_field_fatal_witness :
    (∃ m, (invoice_batches_import
        [{ title := "B1", start := "2020-01-01", endDate := "2020-02-01" },
         { title := "", start := "2020-01-01", endDate := "2020-02-01" }] 0).2
        = Except.error (PyExc.exc m) ∧
      worksheet_importer_call (Except.error (PyExc.exc m))
        = CallResult.raised (PyExc.exc m)) ∧
    ((sub_groups_import [{ title := "", description := "d", sortKey := "1" },
        { title := "G", description := "d", sortKey := "2" }]).2 = Except.ok () ∧
     (sub_groups_import [{ title := "", description := "d", sortKey := "1" },
        { title := "G", description := "d", sortKey := "2" }]).1
       = [{ title := "", description := "d", sortKey := "1" },
          { title := "G", description := "d", sortKey := "2" }].filter
           (fun r => !(r.title == ""))) :=
  ⟨invoice_batches_missing_field_fatal.1
      [{ title := "B1", start := "2020-01-01", endDate := "2020-02-01" },
       { title := "", start := "2020-01-01", endDate := "2020-02-01" }] 0
      { title := "", start := "2020-01-01", endDate := "2020-02-01" }
      (by decide) (Or.inl rfl),
   invoice_batches_missing_field_fatal.2
      [{ title := "", description := "d", sortKey := "1" },
       { title := "G", description := "d", sortKey := "2" }]⟩

end Senaite
